import Mathlib

/-!
Verification of the customer-support chat backend (FastAPI + MongoDB + Gemini).

Shallow embedding of the core modules:
  * `app/utils/prompts.py`        — escalation detector, context assembler;
  * `app/services/escalation_handler.py` — escalation note builder;
  * `app/services/llm_integration.py`    — retry/backoff and fallback;
  * `app/services/faq_handler.py`        — exact + fuzzy FAQ lookup;
  * `app/services/session_manager.py`    — session cache and durable store.

Machine integers do not occur; timestamps are modelled as a `Nat` clock in
minutes, ticked once per `datetime.utcnow()` call, so successive timestamps
are strictly increasing (the real clock is monotone at the resolution the
code relies on for its `sort("timestamp")` reads).  External collaborators
(MongoDB, the Gemini API, rapidfuzz's scorer) are modelled as explicit data
(lists standing for collections) or as function parameters.
-/

/-! ## String helpers

`str.lower()` on the ASCII strings this code base uses is `Char.toLower`
applied characterwise; `String.toLower` itself is avoided because its
byte-level implementation does not reduce in the kernel. -/

/-- Characterwise lower-casing of a Python string (`str.lower()`), as a
character list. -/
def lowerChars (s : String) : List Char :=
  s.data.map Char.toLower

/-- Substring test on character lists: `infixOf n h = true` iff `n` occurs
contiguously inside `h` (the semantics of `re.search` for a literal
pattern, and of Python's `in` on strings). -/
def infixOf (n : List Char) : List Char → Bool
  | [] => n.isEmpty
  | c :: t => n.isPrefixOf (c :: t) || infixOf n t

theorem infixOf_iff (n : List Char) : ∀ h : List Char, infixOf n h = true ↔ n <:+: h := by
  intro h
  induction h with
  | nil =>
    simp [infixOf, List.isEmpty_iff]
  | cons c t ih =>
    simp [infixOf, List.infix_cons_iff, ih, List.isPrefixOf_iff_prefix]

/-! ## `app/utils/prompts.py` -/

/-- `ESCALATION_TRIGGER_PHRASES` (prompts.py lines 5–21), verbatim.  Each is a
regex literal with no metacharacters, compiled with `re.IGNORECASE`
(line 23), so matching is case-insensitive substring search. -/
def ESCALATION_TRIGGER_PHRASES : List String :=
  ["i'm unable to answer",
   "i don't know",
   "please contact support",
   "escalate",
   "sorry, i cannot assist with that",
   "not sure",
   "could you please clarify",
   "unable to help",
   "can't help",
   "try to help",
   "clarify or rephrase your question:",
   "do not have that information",
   "i'm here to assist specifically with questions about himanshu",
   "for other topics, i may have limited knowledge",
   "please clarify or ask about himanshu"]

/-- One compiled trigger pattern applied to the response text:
`pattern.search(response_text)` for a literal pattern under `re.IGNORECASE`. -/
def phraseMatches (p s : String) : Bool :=
  infixOf (lowerChars p) (lowerChars s)

/-- `is_unsatisfactory` (prompts.py lines 52–65).  Returns `True` iff some
trigger pattern matches; the `fallback_indicators` block on lines 60–64 only
prints a log line and never changes the returned value, so it is dropped
from the value-level model. -/
def is_unsatisfactory (s : String) : Bool :=
  ESCALATION_TRIGGER_PHRASES.any (fun p => phraseMatches p s)

/-- `PERSONAL_PROFILE_CONTENT` (prompts.py lines 26–34), verbatim. -/
def PERSONAL_PROFILE_CONTENT : String :=
  "\nHimanshu Chitoria is a Computer Science student at VIT Bhopal and pursuing a part-time Bachelor of Science in Data Science at IIT Madras. \nSpecializes in full-stack web development, healthcare technology, and cybersecurity.\nSkills: Python, JavaScript (React.js, Next.js), Node.js, REST APIs, MongoDB, AWS, TensorFlow, OpenCV.\nInternships at IDEMIA, Hitachi, ValU5Healthcare involving facial recognition, AWS automation, secure healthcare APIs.\nNotable projects: DevSync (real-time collaboration), FinSave (AI finance tracker), TrendHire (AI resume optimizer).\nCertifications in Data Fundamentals (IBM), Cloud Computing (NPTEL), Python Essentials (Vityarthi), and Networking (Google).\nFluent in Hindi, English, and Japanese.\n"

/-- The fixed system-message content built in `build_conversational_prompt`
(prompts.py lines 73–78): persona text followed by the knowledge base. -/
def systemContent : String :=
  "You are the personal assistant of Himanshu Chitoria, a Computer Science student at VIT Bhopal and part-time Data Science student at IIT Madras. Only answer questions related to Himanshu's skills, projects, internships, certifications, education, and interests based on the knowledge below. Do NOT discuss yourself or any AI model information. Politely decline unrelated questions.\nKnowledge base:\n" ++ PERSONAL_PROFILE_CONTENT

/-- A role-tagged chat message (`{"role": ..., "content": ...}`). -/
structure ChatMsg where
  role : String
  content : String
deriving DecidableEq

/-- The history part of the messages list: the stride-2 loop of
`build_conversational_prompt` (prompts.py lines 82–89).  A complete pair
becomes a "user" then an "assistant" message; a trailing odd element becomes
a lone "user" message. -/
def histMsgs : List String → List ChatMsg
  | [] => []
  | [u] => [⟨"user", u⟩]
  | u :: a :: rest => ⟨"user", u⟩ :: ⟨"assistant", a⟩ :: histMsgs rest

/-- `build_conversational_prompt` (prompts.py lines 68–94): system message,
then mapped history, then the new user query. -/
def build_conversational_prompt (user_query : String) (conversation_history : List String) :
    List ChatMsg :=
  ⟨"system", systemContent⟩ :: histMsgs conversation_history ++ [⟨"user", user_query⟩]

theorem histMsgs_length : ∀ h : List String, (histMsgs h).length = h.length
  | [] => rfl
  | [_] => rfl
  | _ :: _ :: rest => by simp [histMsgs, histMsgs_length rest]

theorem histMsgs_get :
    ∀ (h : List String) (i : Nat), i < h.length →
      (histMsgs h)[i]? = some ⟨if i % 2 = 0 then "user" else "assistant", h[i]?.getD ""⟩
  | [], i, hi => by simp at hi
  | [u], 0, _ => by simp [histMsgs]
  | [u], i + 1, hi => by simp at hi
  | u :: a :: rest, 0, _ => by simp [histMsgs]
  | u :: a :: rest, 1, _ => by simp [histMsgs]
  | u :: a :: rest, i + 2, hi => by
    have ih := histMsgs_get rest i (by simpa using hi)
    simpa [histMsgs, Nat.add_mod_right] using ih

/-- C4: the escalation detector `is_unsatisfactory` is a total function on
strings that returns `true` exactly when some phrase of the fixed trigger
set occurs, case-insensitively, as a substring of the response text; on
`"I don't know the answer"` it returns `true`, on the empty string `false`. -/
theorem C4_escalation_detector_ci_substring :
    (∀ s : String, is_unsatisfactory s = true ↔
        ∃ p ∈ ESCALATION_TRIGGER_PHRASES, lowerChars p <:+: lowerChars s)
    ∧ is_unsatisfactory "I don't know the answer" = true
    ∧ is_unsatisfactory "" = false := by
  refine ⟨fun s => ?_, by decide, by decide⟩
  simp [is_unsatisfactory, phraseMatches, List.any_eq_true, infixOf_iff]

/-- C5: the context assembler produces one leading "system" message carrying
the fixed persona/knowledge-base block, then the history items in their
original order with alternating "user"/"assistant" roles (a trailing odd
item staying a lone "user" message, neither dropped nor paired with a
synthetic reply), then one final "user" message containing the new query;
nothing else, so the output length is history length plus two. -/
theorem C5_context_assembler_structure (q : String) (h : List String) :
    (build_conversational_prompt q h).length = h.length + 2
    ∧ (build_conversational_prompt q h).head? = some ⟨"system", systemContent⟩
    ∧ (∀ i, i < h.length →
        (build_conversational_prompt q h)[i + 1]? =
          some ⟨if i % 2 = 0 then "user" else "assistant", h[i]?.getD ""⟩)
    ∧ (build_conversational_prompt q h)[h.length + 1]? = some ⟨"user", q⟩ := by
  unfold build_conversational_prompt
  refine ⟨by simp [histMsgs_length], rfl, ?_, ?_⟩
  · intro i hi
    rw [List.getElem?_append_left (by simp [histMsgs_length]; omega),
      List.getElem?_cons_succ]
    exact histMsgs_get h i hi
  · have hl : h.length + 1 = (⟨"system", systemContent⟩ :: histMsgs h : List ChatMsg).length := by
      simp [histMsgs_length]
    rw [hl, List.getElem?_concat_length]

/-! ## `app/services/escalation_handler.py` -/

/-- The pair-formatting loop of `create_escalation_note`
(escalation_handler.py lines 40–45): each stride-2 chunk becomes a
`User: ...` line, a `Bot: ...` line (with the `<No reply>` sentinel when the
history has odd length and the final entry is unmatched), and a blank
spacer line. -/
def pairsLines : List String → List String
  | [] => []
  | [u] => ["User: " ++ u, "Bot: <No reply>", ""]
  | u :: b :: rest => ("User: " ++ u) :: ("Bot: " ++ b) :: "" :: pairsLines rest

/-- The fixed header lines of the note (escalation_handler.py lines 29–37),
around the triggering user query. -/
def noteHeader (user_query : String) : List String :=
  ["=== Escalation Alert ===",
   "An AI customer support escalation has been triggered.",
   "",
   "User Query:",
   user_query,
   "",
   "Conversation Context (most recent messages last):"]

/-- The fixed footer lines of the note (escalation_handler.py lines 47–48). -/
def noteFooter : List String :=
  ["Recommended Action: Escalate this issue to a human customer support agent.",
   "======================="]

/-- The full line list `note_lines` of `create_escalation_note` at the point
of the final join (escalation_handler.py lines 29–48). -/
def noteLines (user_query : String) (conversation_history : List String) : List String :=
  noteHeader user_query ++ pairsLines conversation_history ++ noteFooter

/-- `create_escalation_note` (escalation_handler.py lines 16–50):
`"\n".join(note_lines)`. -/
def create_escalation_note (user_query : String) (conversation_history : List String) : String :=
  String.intercalate "\n" (noteLines user_query conversation_history)

theorem pairsLines_user_mem :
    ∀ (h : List String) (i : Nat), 2 * i < h.length →
      ("User: " ++ (h[2 * i]?.getD "")) ∈ pairsLines h
  | [], i, hi => by simp at hi
  | [u], 0, _ => by simp [pairsLines]
  | [u], i + 1, hi => by
    simp only [List.length_cons, List.length_nil] at hi
    omega
  | u :: b :: rest, 0, _ => by simp [pairsLines]
  | u :: b :: rest, i + 1, hi => by
    have ih := pairsLines_user_mem rest i (by simp at hi ⊢; omega)
    have harith : 2 * (i + 1) = 2 * i + 1 + 1 := by omega
    simp only [pairsLines, harith, List.getElem?_cons_succ]
    simp [ih]

theorem pairsLines_bot_mem :
    ∀ (h : List String) (i : Nat), 2 * i < h.length →
      ("Bot: " ++ (h[2 * i + 1]?.getD "<No reply>")) ∈ pairsLines h
  | [], i, hi => by simp at hi
  | [u], 0, _ => by simp [pairsLines]
  | [u], i + 1, hi => by
    simp only [List.length_cons, List.length_nil] at hi
    omega
  | u :: b :: rest, 0, _ => by simp [pairsLines]
  | u :: b :: rest, i + 1, hi => by
    have ih := pairsLines_bot_mem rest i (by simp at hi ⊢; omega)
    have harith : 2 * (i + 1) = 2 * i + 1 + 1 := by omega
    simp only [pairsLines, harith, List.getElem?_cons_succ]
    simp [ih]

/-- C8: the escalation note contains the triggering query as one of its
lines, and for every pair position `i` it contains the line
`User: <msg>` for history item `2i` and the line `Bot: <reply>` for
history item `2i+1`, the reply falling back to the `<No reply>` sentinel
when the history has odd length and item `2i+1` does not exist; in
particular for query "Why is my order late?" with history ["Hi", "Hello!"]
the note has lines `User: Hi` and `Bot: Hello!` alongside the query, and
with odd history ["Hi"] it has the line `Bot: <No reply>`. -/
theorem C8_escalation_note_renders_pairs (q : String) (h : List String) :
    create_escalation_note q h = String.intercalate "\n" (noteLines q h)
    ∧ q ∈ noteLines q h
    ∧ (∀ i, 2 * i < h.length →
        ("User: " ++ (h[2 * i]?.getD "")) ∈ noteLines q h
        ∧ ("Bot: " ++ (h[2 * i + 1]?.getD "<No reply>")) ∈ noteLines q h)
    ∧ "User: Hi" ∈ noteLines "Why is my order late?" ["Hi", "Hello!"]
    ∧ "Bot: Hello!" ∈ noteLines "Why is my order late?" ["Hi", "Hello!"]
    ∧ "Why is my order late?" ∈ noteLines "Why is my order late?" ["Hi", "Hello!"]
    ∧ "Bot: <No reply>" ∈ noteLines "Why is my order late?" ["Hi"] := by
  refine ⟨rfl, by simp [noteLines, noteHeader], fun i hi => ⟨?_, ?_⟩,
    by decide, by decide, by decide, by decide⟩
  · simp [noteLines, pairsLines_user_mem h i hi]
  · simp [noteLines, pairsLines_bot_mem h i hi]

/-! ## `app/services/llm_integration.py`

The Gemini call itself is the opaque collaborator: it is a parameter
`call : String → Nat → Except String String` giving, for the flattened
prompt and the attempt number (1-based, as in `_retry_api_call`), either the
response text or the exception the attempt raised.  `routes.py` constructs
`LLMClient` with the constructor defaults, `max_retries = 3` and
`retry_delay = 2.0` (llm_integration.py line 22). -/

/-- Constructor default `max_retries` (llm_integration.py line 22). -/
def max_retries : Nat := 3

/-- Constructor default `retry_delay`, in the spec's time units
(llm_integration.py line 22). -/
def retry_delay : Nat := 2

/-- The loop body of `_retry_api_call` (llm_integration.py lines 29–43) over
the remaining attempt numbers, carrying the current `delay`.  Returns the
final outcome (`.error` models the raised exception after the last attempt)
and the list of backoff delays actually slept, in order.  The `[]` case is
unreachable for `range(1, max_retries + 1)` with `max_retries = 3`; Python
would fall off the loop returning `None`. -/
def retryGo (f : Nat → Except String String) : Nat → List Nat → Except String String × List Nat
  | _, [] => (.error "no attempts", [])
  | delay, a :: rest =>
    match f a with
    | .ok r => (.ok r, [])
    | .error e =>
      match rest with
      | [] => (.error e, [])
      | b :: rest' =>
        let p := retryGo f (delay * 2) (b :: rest')
        (p.1, delay :: p.2)

/-- `_retry_api_call` (llm_integration.py lines 29–43): attempts
`1, ..., max_retries`, sleeping `delay` and doubling it after each failed
attempt that is not the last, re-raising the last failure. -/
def retry_api_call (f : Nat → Except String String) : Except String String × List Nat :=
  retryGo f retry_delay (List.range' 1 max_retries)

/-- The fixed user-facing apology substituted when all retries fail
(llm_integration.py line 81). -/
def FALLBACK_TEXT : String :=
  "Sorry, I'm having trouble processing your request at the moment."

/-- The fixed replacement text when the response triggers escalation
(llm_integration.py line 70). -/
def ESCALATION_TEXT : String :=
  "Your query has been escalated to a human agent for assistance."

/-- The result dictionary of `generate_response`. -/
structure GenResult where
  text : String
  escalated : Bool
deriving DecidableEq

/-- The flattened prompt of `generate_response` (llm_integration.py
lines 49–54): one `Role: content` line per message. -/
def promptOf (user_query : String) (conversation_history : List String) : String :=
  String.intercalate "\n"
    ((build_conversational_prompt user_query conversation_history).map
      (fun m => m.role.capitalize ++ ": " ++ m.content))

/-- `generate_response` (llm_integration.py lines 45–83): build the prompt,
call the model through `_retry_api_call`; an exhausted retry is caught and
turned into the fixed apology with `escalated = False`; a successful
response is classified by `is_unsatisfactory`. -/
def generate_response (call : String → Nat → Except String String)
    (user_query : String) (conversation_history : List String) : GenResult :=
  match (retry_api_call (call (promptOf user_query conversation_history))).1 with
  | .ok t => if is_unsatisfactory t then ⟨ESCALATION_TEXT, true⟩ else ⟨t, false⟩
  | .error _ => ⟨FALLBACK_TEXT, false⟩

theorem retry_api_call_eq (f : Nat → Except String String) :
    retry_api_call f =
      match f 1 with
      | .ok r => (.ok r, [])
      | .error _ =>
        match f 2 with
        | .ok r => (.ok r, [2])
        | .error _ =>
          match f 3 with
          | .ok r => (.ok r, [2, 4])
          | .error e => (.error e, [2, 4]) := by
  have hr : List.range' 1 max_retries = [1, 2, 3] := rfl
  cases h1 : f 1 <;> cases h2 : f 2 <;> cases h3 : f 3 <;>
    simp [retry_api_call, hr, retryGo, retry_delay, h1, h2, h3]

/-- C6: the model call is retried up to 3 attempts ­— the outcome depends
only on the call's behaviour at attempts 1..3 — with exponential backoff:
the delays slept form a prefix of `[2, 4]` (base 2, doubling after each
failed non-final attempt); and when all 3 attempts fail,
`_retry_api_call`'s outcome is the last error after sleeping `[2, 4]`,
which `generate_response` absorbs into the fixed apology text with
`escalated = false` instead of propagating the failure. -/
theorem C6_retry_backoff_and_fallback (call : String → Nat → Except String String)
    (q : String) (h : List String) :
    (∀ p, (retry_api_call (call p)).2 =
      List.take (retry_api_call (call p)).2.length [2, 4])
    ∧ (∀ g : String → Nat → Except String String,
        (∀ p a, 1 ≤ a → a ≤ 3 → g p a = call p a) →
        generate_response g q h = generate_response call q h)
    ∧ (∀ p, (∀ a, 1 ≤ a → a ≤ 3 → ∃ e, call p a = .error e) →
        ∃ e, retry_api_call (call p) = (.error e, [2, 4]))
    ∧ ((∀ a, 1 ≤ a → a ≤ 3 → ∃ e, call (promptOf q h) a = .error e) →
        generate_response call q h = ⟨FALLBACK_TEXT, false⟩) := by
  refine ⟨fun p => ?_, fun g hg => ?_, fun p hf => ?_, fun hf => ?_⟩
  · rw [retry_api_call_eq]
    cases h1 : call p 1 <;> cases h2 : call p 2 <;> cases h3 : call p 3 <;> simp
  · unfold generate_response
    rw [retry_api_call_eq, retry_api_call_eq,
      hg _ 1 (by omega) (by omega), hg _ 2 (by omega) (by omega),
      hg _ 3 (by omega) (by omega)]
  · obtain ⟨e1, h1⟩ := hf 1 (by omega) (by omega)
    obtain ⟨e2, h2⟩ := hf 2 (by omega) (by omega)
    obtain ⟨e3, h3⟩ := hf 3 (by omega) (by omega)
    exact ⟨e3, by rw [retry_api_call_eq, h1, h2, h3]⟩
  · obtain ⟨e1, h1⟩ := hf 1 (by omega) (by omega)
    obtain ⟨e2, h2⟩ := hf 2 (by omega) (by omega)
    obtain ⟨e3, h3⟩ := hf 3 (by omega) (by omega)
    unfold generate_response
    rw [retry_api_call_eq, h1, h2, h3]

/-! ## `app/services/faq_handler.py`

The FAQ table is the `faqs.json` contents: an insertion-ordered mapping,
modelled as an association list `List (String × String)` of question→answer.
`initialize` (lines 24–41) and the synchronous fallback load (lines 55–66)
set `faq_data = {}` when loading fails, logging a warning instead of
raising, so a failed load is the `faq_data = []` case below.  rapidfuzz's
`process.extractOne(query, candidates, scorer=fuzz.token_set_ratio)` is the
opaque "best match with score" collaborator: a parameter
`extractOne : String → List String → Option (String × Nat)`. -/

/-- Python `str.strip()` whitespace set. -/
def pyWhitespace (c : Char) : Bool :=
  c = ' ' || c = '\t' || c = '\n' || c = '\r' || c = '\x0b' || c = '\x0c'

/-- Python `str.strip()`: drop leading and trailing whitespace. -/
def pyStrip (s : String) : String :=
  ⟨((s.data.dropWhile pyWhitespace).reverse.dropWhile pyWhitespace).reverse⟩

/-- Python `dict.get(key)` on the insertion-ordered FAQ mapping. -/
def lookupFaq : List (String × String) → String → Option String
  | [], _ => none
  | kv :: rest, k => if kv.1 == k then some kv.2 else lookupFaq rest k

/-- `get_faq_answer` (faq_handler.py lines 43–90), after initialization:
strip the query; return the first exact case-insensitive key match
(lines 71–73); otherwise, when the question list is non-empty, take the
fuzzy best match and accept it only at `score >= 75` (lines 76–82);
otherwise `None` (line 90 — the `fallback_prompt` string on lines 85–89 is
computed in the source but never returned). -/
def get_faq_answer (extractOne : String → List String → Option (String × Nat))
    (faq_data : List (String × String)) (query : String) : Option String :=
  let query_trimmed := pyStrip query
  match faq_data.find? (fun kv => lowerChars kv.1 == lowerChars query_trimmed) with
  | some kv => some kv.2
  | none =>
    let question_list := faq_data.map Prod.fst
    if question_list.isEmpty then none
    else
      match extractOne query_trimmed question_list with
      | some (best_match, score) =>
        if 75 ≤ score then lookupFaq faq_data best_match else none
      | none => none

theorem lookupFaq_mem :
    ∀ (faq : List (String × String)) (k : String),
      k ∈ faq.map Prod.fst → ∃ a, lookupFaq faq k = some a
  | [], k, hb => by simp at hb
  | kv :: rest, k, hb => by
    by_cases h : kv.1 == k
    · exact ⟨kv.2, by simp [lookupFaq, h]⟩
    · have hk : k ∈ rest.map Prod.fst := by
        simp only [List.map_cons, List.mem_cons] at hb
        rcases hb with h1 | h1
        · exact absurd (by simp [h1]) h
        · exact h1
      obtain ⟨a, ha⟩ := lookupFaq_mem rest k hk
      exact ⟨a, by simp [lookupFaq, h, ha]⟩

/-- C7: the FAQ matcher returns the stored answer on an exact
case-insensitive match of the (stripped) query against a stored question;
otherwise it consults the fuzzy best match and returns that stored
question's answer exactly when the similarity score is at least 75,
returning `none` below the threshold (and when the best match is a stored
question, the accepted answer really is present, `some`); and when the FAQ
data failed to load (`faq_data = []`) every query returns `none` without
raising. -/
theorem C7_faq_exact_fuzzy_threshold (eo : String → List String → Option (String × Nat))
    (faq : List (String × String)) (q : String) :
    (get_faq_answer eo [] q = none)
    ∧ (∀ kv, faq.find? (fun kv => lowerChars kv.1 == lowerChars (pyStrip q)) = some kv →
        get_faq_answer eo faq q = some kv.2)
    ∧ (faq.find? (fun kv => lowerChars kv.1 == lowerChars (pyStrip q)) = none →
        (∀ b s, eo (pyStrip q) (faq.map Prod.fst) = some (b, s) →
          (75 ≤ s → get_faq_answer eo faq q = lookupFaq faq b
            ∧ (b ∈ faq.map Prod.fst → ∃ a, get_faq_answer eo faq q = some a))
          ∧ (s < 75 → get_faq_answer eo faq q = none))
        ∧ (eo (pyStrip q) (faq.map Prod.fst) = none → get_faq_answer eo faq q = none)) := by
  refine ⟨by simp [get_faq_answer], fun kv hkv => by simp [get_faq_answer, hkv], fun hnone => ?_⟩
  cases faq with
  | nil =>
    exact ⟨fun b s heo =>
      ⟨fun hs => ⟨by simp [get_faq_answer, lookupFaq], fun hb => by simp at hb⟩,
       fun hs => by simp [get_faq_answer]⟩,
      fun heo => by simp [get_faq_answer]⟩
  | cons kv0 rest =>
    refine ⟨fun b s heo => ⟨fun hs => ?_, fun hs => ?_⟩, fun heo => ?_⟩
    · simp only [List.map_cons] at heo
      have hg : get_faq_answer eo (kv0 :: rest) q = lookupFaq (kv0 :: rest) b := by
        simp [get_faq_answer, hnone, heo, hs]
      refine ⟨hg, fun hb => ?_⟩
      obtain ⟨a, ha⟩ := lookupFaq_mem _ b hb
      exact ⟨a, by rw [hg, ha]⟩
    · simp only [List.map_cons] at heo
      simp [get_faq_answer, hnone, heo, Nat.not_le.mpr hs]
    · simp only [List.map_cons] at heo
      simp [get_faq_answer, hnone, heo]

/-! ## `app/services/session_manager.py`

State model.  The manager's state is the in-memory cache (`self._sessions`,
a dict modelled as a function to `Option Session`), the two MongoDB
collections (`sessions_collection` and `conversations_collection`, lists in
insertion order standing for the store), and a `Nat` clock in minutes: each
`datetime.utcnow()` call reads the clock and advances it by one, making
successive timestamps strictly increasing.

Lock model.  `self._lock` is a non-reentrant `asyncio.Lock`.  Every
operation below is modelled as invoked at top level with the lock free.
`add_to_conversation` (line 108) and the expired branch of `get_session`
(line 74) call, while still inside their own `async with self._lock` block,
a method that itself begins with `async with self._lock`; awaiting that
second acquisition never completes (asyncio locks have no owner and are not
reentrant), so those paths are modelled as the explicit outcome
`deadlock`.  UUID generation is a parameter (`sid`): `uuid4` is the
collision-resistant opaque generator. -/

/-- `Session` (session_manager.py lines 9–16). -/
structure Session where
  session_id : String
  created_at : Nat
  query_history : List String
deriving DecidableEq

/-- One document of `sessions_collection` (the `_id`, `created_at` and
`last_active_at` fields written on lines 59–64; the `conversation_history`
field created there is never read afterwards and is omitted). -/
structure SessionDoc where
  doc_id : String
  created_at : Nat
  last_active_at : Nat
deriving DecidableEq

/-- One document of `conversations_collection` (lines 115–120). -/
structure ConversationDoc where
  session_id : String
  user_query : String
  bot_response : String
  timestamp : Nat
deriving DecidableEq

/-- The manager's full state: cache, store collections, clock. -/
structure MgrState where
  cache : String → Option Session
  sessionsColl : List SessionDoc
  conversationsColl : List ConversationDoc
  clock : Nat

/-- `self._expiration_delta` as the code actually sets it
(session_manager.py line 32): `timedelta(days=365*10)`, in minutes.  The
line using `settings.session_expiration_minutes` is commented out
(lines 29–31, "For debugging, disable expiration filtering"). -/
def EXPIRATION_DELTA : Nat := 10 * 365 * 24 * 60

/-- `Settings.session_expiration_minutes` default (config.py line 17). -/
def session_expiration_minutes : Nat := 1440

/-- Outcome of `get_session`: the returned `Optional[Session]` with the
post-state, or a deadlock on the expired-eviction path. -/
inductive GetOutcome where
  | ret (sess : Option Session) (st : MgrState)
  | deadlock

/-- Outcome of `add_to_conversation`: normal return, a store exception
propagating to the caller (with the state at the raise), or the
cache-miss deadlock. -/
inductive AddOutcome where
  | ok (st : MgrState)
  | raised (st : MgrState)
  | deadlock

/-- The `{"_id": sid}` filter document of the sessions collection. -/
def matchesId (sid : String) (d : SessionDoc) : Bool :=
  d.doc_id == sid

/-- `sessions_collection.find_one({"_id": sid})`. -/
def findSessionDoc (docs : List SessionDoc) (sid : String) : Option SessionDoc :=
  docs.find? (matchesId sid)

/-- `conversations_collection.find({"session_id": sid})`: the matching
documents in insertion order. -/
def docsFor (docs : List ConversationDoc) (sid : String) : List ConversationDoc :=
  docs.filter (fun d => d.session_id == sid)

/-- Insertion step of the store's `sort("timestamp")`. -/
def insertByTs (d : ConversationDoc) : List ConversationDoc → List ConversationDoc
  | [] => [d]
  | e :: es => if d.timestamp ≤ e.timestamp then d :: e :: es else e :: insertByTs d es

/-- The store's ascending `sort("timestamp")` over the found documents. -/
def sortByTs : List ConversationDoc → List ConversationDoc
  | [] => []
  | d :: ds => insertByTs d (sortByTs ds)

/-- The rehydration flattening loop (session_manager.py lines 86–91): each
entry contributes its `user_query` then its `bot_response`.  Both fields
are present on every document `add_to_conversation` writes, so the two
`in entry` guards always pass. -/
def flattenDocs : List ConversationDoc → List String
  | [] => []
  | e :: es => e.user_query :: e.bot_response :: flattenDocs es

/-- `sessions_collection.update_one({"_id": sid}, {"$set": {"last_active_at": t}})`:
update the first matching document. -/
def updateLastActive : List SessionDoc → String → Nat → List SessionDoc
  | [], _, _ => []
  | d :: ds, sid, t =>
    if d.doc_id == sid then { d with last_active_at := t } :: ds
    else d :: updateLastActive ds sid t

/-- `self._sessions[sid] = s`. -/
def cacheInsert (c : String → Option Session) (sid : String) (s : Session) :
    String → Option Session :=
  fun x => if x = sid then some s else c x

/-- `del self._sessions[sid]` (or any other removal from the cache). -/
def cacheRemove (c : String → Option Session) (sid : String) : String → Option Session :=
  fun x => if x = sid then none else c x

/-- `create_session` (session_manager.py lines 52–67), with `sid` the fresh
`uuid4` value: timestamp, empty history, insert into cache and store. -/
def create_session (st : MgrState) (sid : String) : Session × MgrState :=
  let now := st.clock
  let sess : Session := ⟨sid, now, []⟩
  let doc : SessionDoc := ⟨sid, now, now⟩
  (sess,
   { cache := cacheInsert st.cache sid sess,
     sessionsColl := st.sessionsColl ++ [doc],
     conversationsColl := st.conversationsColl,
     clock := st.clock + 1 })

/-- `get_session` (session_manager.py lines 69–102).  Cached and fresh:
return it.  Cached and expired: line 74 awaits `delete_session`, which
starts with `async with self._lock` while `get_session` still holds the
lock — deadlock.  Not cached: read the session document, the conversation
documents ordered by timestamp, flatten them user-then-bot, repopulate the
cache; `none` when the store has no record. -/
def get_session (st : MgrState) (sid : String) : GetOutcome :=
  match st.cache sid with
  | some sess =>
    if st.clock - sess.created_at > EXPIRATION_DELTA then
      .deadlock
    else
      .ret (some sess) { st with clock := st.clock + 1 }
  | none =>
    match findSessionDoc st.sessionsColl sid with
    | none => .ret none st
    | some doc =>
      let history := flattenDocs (sortByTs (docsFor st.conversationsColl sid))
      let loaded : Session := ⟨doc.doc_id, doc.created_at, history⟩
      .ret (some loaded) { st with cache := cacheInsert st.cache sid loaded }

/-- `add_to_conversation` (session_manager.py lines 104–126).  On a cache
miss, line 108 awaits `self.get_session` while still holding `self._lock`;
`get_session`'s own `async with self._lock` then waits forever — deadlock.
On a hit, append the two strings to the cached history, then (outside the
lock) insert one conversation document and update `last_active_at`.  The
two store calls are the fallible collaborator: `insertOk` and `updateOk`
say whether each MongoDB call succeeds; a `false` models the call raising,
which propagates (`raised`) with no rollback of the earlier steps. -/
def add_to_conversation (insertOk updateOk : Bool) (st : MgrState)
    (sid user_query bot_response : String) : AddOutcome :=
  match st.cache sid with
  | none => .deadlock
  | some sess =>
    let sess1 : Session := { sess with query_history := sess.query_history ++ [user_query, bot_response] }
    let st1 : MgrState := { st with cache := cacheInsert st.cache sid sess1 }
    let ts := st1.clock
    let st2 : MgrState := { st1 with clock := st1.clock + 1 }
    if insertOk then
      let st3 : MgrState := { st2 with conversationsColl := st2.conversationsColl ++ [⟨sid, user_query, bot_response, ts⟩] }
      let now2 := st3.clock
      let st4 : MgrState := { st3 with clock := st3.clock + 1 }
      if updateOk then
        .ok { st4 with sessionsColl := updateLastActive st4.sessionsColl sid now2 }
      else
        .raised st4
    else
      .raised st2

/-- Cache eviction of one session id (the in-memory half of
`delete_session`, lines 166–168; also what a process restart does to the
cache), used to force the store-rehydration path of `get_session`. -/
def evictFromCache (st : MgrState) (sid : String) : MgrState :=
  { st with cache := cacheRemove st.cache sid }

/-- A sequence of fully successful `add_to_conversation` calls for the
turns' (user_query, bot_response) pairs, stopping at the first abnormal
outcome. -/
def runTurns (st : MgrState) (sid : String) : List (String × String) → AddOutcome
  | [] => .ok st
  | t :: ts =>
    match add_to_conversation true true st sid t.1 t.2 with
    | .ok st' => runTurns st' sid ts
    | r => r

/-- The history a sequence of turns should produce: each turn contributes
its user query then its bot response. -/
def turnsFlatten : List (String × String) → List String
  | [] => []
  | t :: ts => t.1 :: t.2 :: turnsFlatten ts

/-- C2: evidence for the `add_to_conversation` contract.  On a cache hit the
turn is appended to the in-memory history, exactly one conversation
document is written and the session's `last_active_at` is updated.  But for
a session id absent from the in-memory cache — the case the spec routes
through a store reload and a `SessionNotFound` failure — the call instead
deadlocks for every store content and store behaviour: line 108 awaits
`get_session`, whose `async with self._lock` can never be entered because
the same task already holds the non-reentrant lock. -/
theorem C2_addTurn_miss_deadlocks_hit_appends (st : MgrState) (sid q r : String) :
    (st.cache sid = none → ∀ insertOk updateOk,
      add_to_conversation insertOk updateOk st sid q r = .deadlock)
    ∧ (∀ sess, st.cache sid = some sess →
        ∃ st', add_to_conversation true true st sid q r = .ok st'
          ∧ st'.cache sid = some { sess with query_history := sess.query_history ++ [q, r] }
          ∧ st'.conversationsColl = st.conversationsColl ++ [⟨sid, q, r, st.clock⟩]
          ∧ st'.sessionsColl = updateLastActive st.sessionsColl sid (st.clock + 1)) := by
  constructor
  · intro h insertOk updateOk
    simp [add_to_conversation, h]
  · intro sess h
    unfold add_to_conversation
    rw [h]
    exact ⟨_, rfl, by simp [cacheInsert], rfl, rfl⟩

/-- C2 witness: a concrete state whose cache does not hold "missing" (while
the store does hold a session document for it), on which
`add_to_conversation` deadlocks. -/
theorem C2_addTurn_miss_deadlocks_witness :
    add_to_conversation true true
      ⟨fun _ => none, [⟨"missing", 0, 0⟩], [], 7⟩ "missing" "hi" "yo" = .deadlock :=
  (C2_addTurn_miss_deadlocks_hit_appends
    ⟨fun _ => none, [⟨"missing", 0, 0⟩], [], 7⟩ "missing" "hi" "yo").1 rfl true true

/-- C3: the expiration check of `get_session` compares against the
hard-coded ten-year `EXPIRATION_DELTA` (session_manager.py line 32), not
against the configured `session_expiration_minutes` (default 1440,
config.py line 17; the line reading it, session_manager.py line 30, is
commented out): a cached session whose age (1441 minutes) exceeds the
configured window is returned as live instead of being treated as absent
and evicted; and a session old enough to trip even the ten-year window is
not evicted either — line 74 awaits `delete_session` while holding the
non-reentrant cache lock, which deadlocks. -/
theorem C3_expired_session_not_evicted :
    (1441 - 0 > session_expiration_minutes)
    ∧ get_session
        ⟨fun x => if x = "s" then some ⟨"s", 0, []⟩ else none, [⟨"s", 0, 0⟩], [], 1441⟩ "s"
        = .ret (some ⟨"s", 0, []⟩)
            ⟨fun x => if x = "s" then some ⟨"s", 0, []⟩ else none, [⟨"s", 0, 0⟩], [], 1442⟩
    ∧ (5256001 - 0 > EXPIRATION_DELTA)
    ∧ get_session
        ⟨fun x => if x = "s" then some ⟨"s", 0, []⟩ else none, [⟨"s", 0, 0⟩], [], 5256001⟩ "s"
        = .deadlock
    ∧ EXPIRATION_DELTA ≠ session_expiration_minutes := by
  refine ⟨by decide, ?_, by decide, ?_, by decide⟩
  · rfl
  · rfl

/-- C10: `add_to_conversation` is not atomic with respect to the store: the
pair is appended to the cached in-memory history before any store call, so
when the conversation insert raises, or when the insert succeeds and the
`last_active_at` update raises, the exception propagates with the pair
already in the in-memory history and nothing rolled back. -/
theorem C10_addTurn_not_atomic_on_store_failure (st : MgrState) (sid q r : String)
    (sess : Session) (h : st.cache sid = some sess) :
    (∀ updateOk, ∃ st', add_to_conversation false updateOk st sid q r = .raised st'
      ∧ st'.cache sid = some { sess with query_history := sess.query_history ++ [q, r] }
      ∧ st'.conversationsColl = st.conversationsColl
      ∧ st'.sessionsColl = st.sessionsColl)
    ∧ (∃ st', add_to_conversation true false st sid q r = .raised st'
      ∧ st'.cache sid = some { sess with query_history := sess.query_history ++ [q, r] }
      ∧ st'.conversationsColl = st.conversationsColl ++ [⟨sid, q, r, st.clock⟩]
      ∧ st'.sessionsColl = st.sessionsColl) := by
  constructor
  · intro updateOk
    unfold add_to_conversation
    rw [h]
    exact ⟨_, rfl, by simp [cacheInsert], rfl, rfl⟩
  · unfold add_to_conversation
    rw [h]
    exact ⟨_, rfl, by simp [cacheInsert], rfl, rfl⟩

/-- C10 witness: the insert-fails case at a concrete cached session — the
in-memory history already holds the pair, the store collections are
untouched. -/
theorem C10_addTurn_not_atomic_witness :
    ∃ st', add_to_conversation true false
        ⟨fun x => if x = "s" then some ⟨"s", 0, []⟩ else none, [⟨"s", 0, 0⟩], [], 5⟩
        "s" "hi" "yo" = .raised st'
      ∧ st'.cache "s" = some ⟨"s", 0, ["hi", "yo"]⟩
      ∧ st'.conversationsColl = [⟨"s", "hi", "yo", 5⟩]
      ∧ st'.sessionsColl = [⟨"s", 0, 0⟩] :=
  (C10_addTurn_not_atomic_on_store_failure
    ⟨fun x => if x = "s" then some ⟨"s", 0, []⟩ else none, [⟨"s", 0, 0⟩], [], 5⟩
    "s" "hi" "yo" ⟨"s", 0, []⟩ (by simp)).2

theorem flattenDocs_append :
    ∀ a b : List ConversationDoc, flattenDocs (a ++ b) = flattenDocs a ++ flattenDocs b
  | [], _ => rfl
  | e :: es, b => by simp [flattenDocs, flattenDocs_append es b]

theorem turnsFlatten_length :
    ∀ ts : List (String × String), (turnsFlatten ts).length = 2 * ts.length
  | [] => rfl
  | t :: ts => by simp [turnsFlatten, turnsFlatten_length ts]; omega

/-- Sorting by timestamp is the identity on a list whose timestamps are
already pairwise nondecreasing — in particular on the store's
insertion-ordered conversation documents, whose timestamps come from the
strictly increasing clock. -/
theorem sortByTs_of_pairwise :
    ∀ l : List ConversationDoc,
      l.Pairwise (fun a b => a.timestamp ≤ b.timestamp) → sortByTs l = l
  | [], _ => rfl
  | d :: ds, hp => by
    have hd := List.pairwise_cons.mp hp
    rw [sortByTs, sortByTs_of_pairwise ds hd.2]
    cases ds with
    | nil => rfl
    | cons e es =>
      have h1 : d.timestamp ≤ e.timestamp := hd.1 e (by simp)
      simp [insertByTs, h1]

theorem updateLastActive_find :
    ∀ (l : List SessionDoc) (sid : String) (t : Nat) (doc : SessionDoc),
      findSessionDoc l sid = some doc →
      findSessionDoc (updateLastActive l sid t) sid = some { doc with last_active_at := t }
  | [], sid, t, doc, h => by simp [findSessionDoc] at h
  | d :: ds, sid, t, doc, h => by
    by_cases hd : matchesId sid d = true
    · unfold findSessionDoc at h
      rw [List.find?_cons_of_pos _ hd] at h
      cases h
      unfold updateLastActive
      rw [if_pos (show (d.doc_id == sid) = true from hd)]
      unfold findSessionDoc
      exact List.find?_cons_of_pos _ hd
    · unfold findSessionDoc at h
      rw [List.find?_cons_of_neg _ hd] at h
      unfold updateLastActive
      rw [if_neg (show ¬(d.doc_id == sid) = true from hd)]
      unfold findSessionDoc
      rw [List.find?_cons_of_neg _ hd]
      exact updateLastActive_find ds sid t doc h

theorem findSessionDoc_append_of_none :
    ∀ (l₁ l₂ : List SessionDoc) (sid : String),
      findSessionDoc l₁ sid = none →
      findSessionDoc (l₁ ++ l₂) sid = findSessionDoc l₂ sid
  | [], l₂, sid, _ => rfl
  | d :: ds, l₂, sid, h => by
    by_cases hd : matchesId sid d = true
    · unfold findSessionDoc at h
      rw [List.find?_cons_of_pos _ hd] at h
      cases h
    · unfold findSessionDoc at h ⊢
      rw [List.find?_cons_of_neg _ hd] at h
      rw [List.cons_append, List.find?_cons_of_neg _ hd]
      exact findSessionDoc_append_of_none ds l₂ sid h

/-- The loop invariant tying the cached session to the store across a
sequence of `add_to_conversation` calls: the cached history equals `hist`;
the session's conversation documents, in store insertion order, flatten to
`hist`, have nondecreasing timestamps all below the clock; and the
sessions collection still resolves the id. -/
def TurnsInv (st : MgrState) (sid : String) (hist : List String) : Prop :=
  (∃ sess, st.cache sid = some sess ∧ sess.query_history = hist)
  ∧ flattenDocs (docsFor st.conversationsColl sid) = hist
  ∧ (docsFor st.conversationsColl sid).Pairwise (fun a b => a.timestamp ≤ b.timestamp)
  ∧ (∀ d ∈ docsFor st.conversationsColl sid, d.timestamp < st.clock)
  ∧ (∃ doc, findSessionDoc st.sessionsColl sid = some doc ∧ doc.doc_id = sid)

theorem addTurn_step (st : MgrState) (sid q r : String) (hist : List String)
    (hinv : TurnsInv st sid hist) :
    ∃ st', add_to_conversation true true st sid q r = .ok st'
      ∧ TurnsInv st' sid (hist ++ [q, r]) := by
  obtain ⟨⟨sess, hc, hh⟩, hflat, hpw, hbound, doc, hdoc, hdid⟩ := hinv
  have heq : add_to_conversation true true st sid q r = AddOutcome.ok
      { cache := cacheInsert st.cache sid { sess with query_history := sess.query_history ++ [q, r] },
        sessionsColl := updateLastActive st.sessionsColl sid (st.clock + 1),
        conversationsColl := st.conversationsColl ++ [⟨sid, q, r, st.clock⟩],
        clock := st.clock + 1 + 1 } := by
    unfold add_to_conversation
    rw [hc]
    rfl
  refine ⟨_, heq, ?_⟩
  unfold TurnsInv
  refine ⟨⟨{ sess with query_history := sess.query_history ++ [q, r] },
    by simp [cacheInsert], by simp [hh]⟩, ?_, ?_, ?_, ?_⟩
  · show flattenDocs (docsFor (st.conversationsColl ++ [⟨sid, q, r, st.clock⟩]) sid) = _
    simp only [docsFor, List.filter_append] at *
    simp [flattenDocs_append, hflat, flattenDocs]
  · show (docsFor (st.conversationsColl ++ [⟨sid, q, r, st.clock⟩]) sid).Pairwise _
    simp only [docsFor, List.filter_append] at *
    rw [List.pairwise_append]
    refine ⟨hpw, by simp, ?_⟩
    intro a ha b hb
    simp at hb
    subst hb
    exact Nat.le_of_lt (hbound a ha)
  · show ∀ d ∈ docsFor (st.conversationsColl ++ [⟨sid, q, r, st.clock⟩]) sid, d.timestamp < st.clock + 1 + 1
    simp only [docsFor, List.filter_append] at *
    intro d hd
    rw [List.mem_append] at hd
    rcases hd with hd | hd
    · exact Nat.lt_trans (hbound d hd) (by omega)
    · simp at hd
      subst hd
      show st.clock < st.clock + 1 + 1
      omega
  · show ∃ doc', findSessionDoc (updateLastActive st.sessionsColl sid (st.clock + 1)) sid = some doc' ∧ doc'.doc_id = sid
    exact ⟨_, updateLastActive_find st.sessionsColl sid (st.clock + 1) doc hdoc, hdid⟩

theorem runTurns_ok :
    ∀ (ts : List (String × String)) (st : MgrState) (sid : String) (hist : List String),
      TurnsInv st sid hist →
      ∃ st', runTurns st sid ts = .ok st' ∧ TurnsInv st' sid (hist ++ turnsFlatten ts)
  | [], st, sid, hist, hinv => ⟨st, rfl, by simpa [turnsFlatten] using hinv⟩
  | t :: ts, st, sid, hist, hinv => by
    obtain ⟨st1, heq, hinv1⟩ := addTurn_step st sid t.1 t.2 hist hinv
    obtain ⟨st2, heq2, hinv2⟩ := runTurns_ok ts st1 sid (hist ++ [t.1, t.2]) hinv1
    refine ⟨st2, ?_, ?_⟩
    · rw [runTurns, heq]
      exact heq2
    · simpa [turnsFlatten, List.append_assoc] using hinv2

/-- C1: starting from a freshly created session (fresh id: unknown to the
store), any sequence of `add_to_conversation` calls appending
(user_query, bot_response) pairs leaves `query_history` equal to the turns
flattened in insertion order — each user query immediately followed by its
bot response — with length exactly 2 × the number of turns; and after the
session is evicted from the in-memory cache, `get_session` rehydrates it
from the store by reading the conversation documents ordered by timestamp
and flattening each into user_query then bot_response, reproducing the same
ordered sequence. -/
theorem C1_history_roundtrip (st0 : MgrState) (sid : String) (turns : List (String × String))
    (hdoc : findSessionDoc st0.sessionsColl sid = none)
    (hconv : docsFor st0.conversationsColl sid = []) :
    ∃ st2, runTurns (create_session st0 sid).2 sid turns = .ok st2
      ∧ (∃ sess, st2.cache sid = some sess
          ∧ sess.query_history = turnsFlatten turns
          ∧ sess.query_history.length = 2 * turns.length)
      ∧ (∃ sess3 st3, get_session (evictFromCache st2 sid) sid = .ret (some sess3) st3
          ∧ sess3.query_history = turnsFlatten turns) := by
  have hinv0 : TurnsInv (create_session st0 sid).2 sid [] := by
    unfold TurnsInv create_session
    refine ⟨⟨⟨sid, st0.clock, []⟩, by simp [cacheInsert], rfl⟩, ?_, ?_, ?_, ?_⟩
    · show flattenDocs (docsFor st0.conversationsColl sid) = []
      rw [hconv]
      rfl
    · show (docsFor st0.conversationsColl sid).Pairwise _
      rw [hconv]
      exact List.Pairwise.nil
    · show ∀ d ∈ docsFor st0.conversationsColl sid, _
      rw [hconv]
      simp
    · refine ⟨⟨sid, st0.clock, st0.clock⟩, ?_, rfl⟩
      show findSessionDoc (st0.sessionsColl ++ [⟨sid, st0.clock, st0.clock⟩]) sid = _
      rw [findSessionDoc_append_of_none st0.sessionsColl _ sid hdoc]
      simp [findSessionDoc, matchesId]
  obtain ⟨st2, hrun, hinv2⟩ := runTurns_ok turns _ sid [] hinv0
  rw [List.nil_append] at hinv2
  obtain ⟨⟨sess, hc, hh⟩, hflat, hpw, hbound, doc, hdoc2, hdid2⟩ := hinv2
  refine ⟨st2, hrun, ⟨sess, hc, hh, by rw [hh, turnsFlatten_length]⟩, ?_⟩
  have hce : (evictFromCache st2 sid).cache sid = none := by simp [evictFromCache, cacheRemove]
  refine ⟨⟨doc.doc_id, doc.created_at, flattenDocs (sortByTs (docsFor st2.conversationsColl sid))⟩,
    { evictFromCache st2 sid with
      cache := cacheInsert (evictFromCache st2 sid).cache sid (⟨doc.doc_id, doc.created_at,
        flattenDocs (sortByTs (docsFor st2.conversationsColl sid))⟩ : Session) },
    ?_, ?_⟩
  · unfold get_session
    rw [hce, show findSessionDoc (evictFromCache st2 sid).sessionsColl sid = some doc from hdoc2]
    rfl
  · show flattenDocs (sortByTs (docsFor st2.conversationsColl sid)) = turnsFlatten turns
    rw [sortByTs_of_pairwise _ hpw, hflat]

/-- C1 witness: one concrete turn on a fresh manager state; the cached
history is ["a", "b"] (length 2 = 2 × 1) and the post-eviction rehydration
reproduces it. -/
theorem C1_history_roundtrip_witness :
    ∃ st2, runTurns (create_session ⟨fun _ => none, [], [], 0⟩ "s").2 "s" [("a", "b")] = .ok st2
      ∧ (∃ sess, st2.cache "s" = some sess
          ∧ sess.query_history = turnsFlatten [("a", "b")]
          ∧ sess.query_history.length = 2 * [("a", "b")].length)
      ∧ (∃ sess3 st3, get_session (evictFromCache st2 "s") "s" = .ret (some sess3) st3
          ∧ sess3.query_history = turnsFlatten [("a", "b")]) :=
  C1_history_roundtrip ⟨fun _ => none, [], [], 0⟩ "s" [("a", "b")] rfl rfl

/-! ## Lock discipline of `SessionManager` (event traces)

Each public operation of session_manager.py, executed to completion on its
main path, is transcribed line by line into the sequence of events relevant
to the spec's concurrency discipline: lock acquisitions/releases of the
per-instance `self._lock`, cache mutations (insert, remove, history
append), and store operations (any `await` on a MongoDB collection). -/

/-- One event of an operation's execution trace. -/
inductive LockEvent where
  | acquire
  | release
  | cacheMut
  | storeOp
deriving DecidableEq

/-- `create_session` (lines 52–67): `async with self._lock` wraps the cache
insert (line 57) AND the `sessions_collection.insert_one` (line 65); the
lock is released only when the block exits after the store call. -/
def create_session_events : List LockEvent :=
  [.acquire, .cacheMut, .storeOp, .release]

/-- `get_session`, cached non-expired branch (lines 70–76): lock around a
pure cache read. -/
def get_session_hit_events : List LockEvent :=
  [.acquire, .release]

/-- `get_session`, rehydration branch (lines 78–102): the first lock block
exits, then `find_one` (line 78) and the sorted conversation read
(lines 82–84) run unlocked, then the cache repopulation (lines 99–100) is
locked. -/
def get_session_rehydrate_events : List LockEvent :=
  [.acquire, .release, .storeOp, .storeOp, .acquire, .cacheMut, .release]

/-- `add_to_conversation`, cache-hit path (lines 104–126): the two history
appends (lines 112–113) under the lock; `insert_one` (line 121) and
`update_one` (line 123) after it is released. -/
def add_to_conversation_events : List LockEvent :=
  [.acquire, .cacheMut, .cacheMut, .release, .storeOp, .storeOp]

/-- `delete_session` (lines 165–171), id present in cache: the cache removal
under the lock, `delete_one` and `delete_many` outside it. -/
def delete_session_events : List LockEvent :=
  [.acquire, .cacheMut, .release, .storeOp, .storeOp]

/-- `list_sessions` (lines 146–163): cache snapshot under the lock, then the
store `find` outside it. -/
def list_sessions_events : List LockEvent :=
  [.acquire, .release, .storeOp]

/-- All traced session-cache operations. -/
def sessionManagerTraces : List (List LockEvent) :=
  [create_session_events, get_session_hit_events, get_session_rehydrate_events,
   add_to_conversation_events, delete_session_events, list_sessions_events]

/-- Scan with the current lock depth: does some store operation execute
while the lock is held? -/
def storeOpWhileLockedAux : Nat → List LockEvent → Bool
  | _, [] => false
  | d, LockEvent.acquire :: r => storeOpWhileLockedAux (d + 1) r
  | d, LockEvent.release :: r => storeOpWhileLockedAux (d - 1) r
  | d, LockEvent.cacheMut :: r => storeOpWhileLockedAux d r
  | d, LockEvent.storeOp :: r => decide (0 < d) || storeOpWhileLockedAux d r

/-- A store operation of the trace runs while the cache lock is held. -/
def storeOpWhileLocked (t : List LockEvent) : Bool :=
  storeOpWhileLockedAux 0 t

/-- Scan with the current lock depth: does some cache mutation execute with
the lock free? -/
def cacheMutOutsideLockAux : Nat → List LockEvent → Bool
  | _, [] => false
  | d, LockEvent.acquire :: r => cacheMutOutsideLockAux (d + 1) r
  | d, LockEvent.release :: r => cacheMutOutsideLockAux (d - 1) r
  | d, LockEvent.storeOp :: r => cacheMutOutsideLockAux d r
  | d, LockEvent.cacheMut :: r => decide (d = 0) || cacheMutOutsideLockAux d r

/-- A cache mutation of the trace runs outside the mutual-exclusion region. -/
def cacheMutOutsideLock (t : List LockEvent) : Bool :=
  cacheMutOutsideLockAux 0 t

/-- C9 counterexample: the claim "no store call is ever executed while the
cache lock is held" is false for the session-cache operations as coded —
`create_session` performs its `sessions_collection.insert_one` inside the
`async with self._lock` block. -/
theorem C9_counterexample_store_op_under_lock :
    ¬ (∀ t ∈ sessionManagerTraces, storeOpWhileLocked t = false) := by
  decide

/-- C9 (amended): every cache mutation happens inside the per-instance
mutual-exclusion region, and every store operation happens outside the held
lock in every traced operation except `create_session`, whose store insert
runs while the lock is held. -/
theorem C9_amended_lock_discipline :
    (∀ t ∈ sessionManagerTraces, cacheMutOutsideLock t = false)
    ∧ (∀ t ∈ [get_session_hit_events, get_session_rehydrate_events,
        add_to_conversation_events, delete_session_events, list_sessions_events],
        storeOpWhileLocked t = false)
    ∧ storeOpWhileLocked create_session_events = true := by
  decide
